import Mathlib

/-!
Verification development for the zod-form repository.

The definitions below are a shallow embedding of the library's core:
the schema parser (`src/core/schema-parser.js`, given here as
`mapZodTypeToHtmlElement`, `extractValidationRules`, `parseSchema`),
the form generator's field-options merge (`src/core/form-generator.js`,
`generateFields`), the validation bridge (`src/core/validation.js`,
`formatZodErrors`, `validateField`), the renderer's field dispatch and the
element renderers' effect on field descriptors
(`src/core/renderer.js` / `src/elements/index.js`, `renderField`), and the
compiled conditional-visibility behavior
(`src/integrations/htmx.js`, `generateConditionalLogic`).

Zod schema nodes are represented by the inductive `ZodType`, covering
exactly the structural cases the library inspects (`instanceof` tests and
`_def` fields).  JavaScript runtime values are represented by `JsValue`.
The behavior of the external zod validator (`schema.parse`) is modelled by
`zodParse` for the fragment the validation bridge exercises; this is noted
at that definition.
-/

namespace ZodForm

/-- The `type` strings produced by `mapZodTypeToHtmlElement` and consumed by
the renderer's element table (`src/elements/index.js` exports). -/
inductive ElemKind : Type where
  | text
  | email
  | url
  | textarea
  | number
  | range
  | checkbox
  | date
  | select
  | radio
  | file
  | object
  | array
  | record
  | stars
deriving DecidableEq, Repr

/-- A check attached to a `z.string()` node (`zodType._def.checks` entries).
`min`/`max` carry the length bound; every check may carry a custom error
message (the second argument of e.g. `z.string().min(2, msg)`), which zod
stores for error reporting. -/
inductive StrCheck : Type where
  | min (value : Nat) (message : Option String)
  | max (value : Nat) (message : Option String)
  | email (message : Option String)
  | url (message : Option String)
  | uuid (message : Option String)
  | regex (source : String) (message : Option String)
deriving DecidableEq, Repr

/-- A check attached to a `z.number()` node.  Numeric bounds are modelled as
integers (the claims under verification only involve integer bounds). -/
inductive NumCheck : Type where
  | min (value : Int) (message : Option String)
  | max (value : Int) (message : Option String)
  | int
  | multipleOf (value : Int)
deriving DecidableEq, Repr

/-- Structural shape of a zod schema node, as discriminated by the
`instanceof` / `_def.typeName` tests in `mapZodTypeToHtmlElement`:
strings, numbers, booleans, dates, enums, arrays, objects, unions, records,
`ZodEffects` wrappers (carrying their `_def.effect.type` string), nullable and
optional wrappers, `ZodInstance` nodes (carrying `_def.cls.name`), and a
catch-all `zunknown` for every other node shape. -/
inductive ZodType : Type where
  | zstring (checks : List StrCheck)
  | znumber (checks : List NumCheck)
  | zboolean
  | zdate
  | zenum (values : List String)
  | zarray (item : ZodType)
  | zobject (shape : List (String × ZodType))
  | zunion (options : List ZodType)
  | zrecord (valueType : ZodType)
  | zeffects (effectType : String) (inner : ZodType)
  | znullable (inner : ZodType)
  | zoptional (inner : ZodType)
  | zinstance (clsName : String)
  | zunknown

/-- One entry of a field's `options` list: `{value, label}` for enum/select
options, with the additional `schema` reference present on union/radio
options. -/
structure OptionEntry : Type where
  value : String
  label : String
  schema : Option ZodType

/-- A JavaScript runtime value, as far as the validation bridge inspects it:
strings, numbers (integer fragment), booleans, plain objects, arrays,
`null` and `undefined`.  Absent object properties read as `undef`. -/
inductive JsValue : Type where
  | str (s : String)
  | num (n : Int)
  | boolean (b : Bool)
  | obj (entries : List (String × JsValue))
  | arr (elems : List JsValue)
  | nullv
  | undef

/-- The normalized validation-rule bag built by `extractValidationRules`.
In the JavaScript source this is a plain object whose keys are set
conditionally; an unset key is `none` / `false` here.  `required` is always
set by the time the function returns (`true` unless the node is
optional/nullable). -/
structure ValidationRules : Type where
  minLength : Option Nat
  maxLength : Option Nat
  email : Bool
  url : Bool
  pattern : Option String
  min : Option Int
  max : Option Int
  integer : Bool
  step : Option Int
  required : Bool
deriving DecidableEq, Repr

/-- The rule bag with no keys set and the default `required = true`
(what `extractValidationRules` returns for a node with no checks). -/
def ValidationRules.base : ValidationRules :=
  ⟨none, none, false, false, none, none, none, false, none, true⟩

mutual
/-- The type-specific part of a field definition, i.e. the object returned
by `mapZodTypeToHtmlElement`: the `type` string plus whichever of
`pattern`, `min`, `max`, `options`, `itemType`, `fields`, `valueType`,
`optional` that branch sets.  Keys a branch does not set are `none`,
`[]` or `false`, mirroring an absent JavaScript property. -/
inductive FieldType : Type where
  | mk (type : ElemKind) (pattern : Option String)
       (min : Option Int) (max : Option Int)
       (options : List OptionEntry)
       (itemType : Option FieldType)
       (fields : List Field)
       (valueType : Option FieldType)
       (optional : Bool) : FieldType

/-- A field definition as produced by `parseSchema`:
`{name, path, ...fieldType, validation, errors, _zodType}`.  The `errors`
bag of `extractErrorMessages` is reduced to its only key (`custom`), and
the `_zodType` back-reference is kept as `zodRef`.  `value` models the
`value` property that the array/record renderers set on the per-item field
objects (absent, i.e. `none`, on fields coming from `parseSchema`). -/
inductive Field : Type where
  | mk (name : String) (path : String) (ftype : FieldType)
       (validation : ValidationRules) (errorsCustom : Bool)
       (zodRef : Option ZodType) (value : Option JsValue) : Field
end

/-- The element type with only `type` set (e.g. the `{ type: 'text' }`
object literals of `mapZodTypeToHtmlElement`). -/
def FieldType.base (k : ElemKind) : FieldType :=
  .mk k none none none [] none [] none false

/-- The `type` component of a field-type object. -/
def FieldType.typeK : FieldType → ElemKind
  | .mk k _ _ _ _ _ _ _ _ => k

/-- Overwrite the `type` component (the assignment `field.type = ...` done
by the `email` / `url` renderers, and the `type` key of a hint bag). -/
def FieldType.withType : FieldType → ElemKind → FieldType
  | .mk _ p mi ma os it fs vt op, k => .mk k p mi ma os it fs vt op

/-- Set `optional = true` (the `innerType.optional = true` assignment in the
nullable/optional branch of `mapZodTypeToHtmlElement`). -/
def FieldType.withOptional : FieldType → FieldType
  | .mk k p mi ma os it fs vt _ => .mk k p mi ma os it fs vt true

def FieldType.minK : FieldType → Option Int
  | .mk _ _ mi _ _ _ _ _ _ => mi

def FieldType.maxK : FieldType → Option Int
  | .mk _ _ _ ma _ _ _ _ _ => ma

def FieldType.optionsK : FieldType → List OptionEntry
  | .mk _ _ _ _ os _ _ _ _ => os

def FieldType.itemTypeK : FieldType → Option FieldType
  | .mk _ _ _ _ _ it _ _ _ => it

def FieldType.fieldsK : FieldType → List Field
  | .mk _ _ _ _ _ _ fs _ _ => fs

def FieldType.valueTypeK : FieldType → Option FieldType
  | .mk _ _ _ _ _ _ _ vt _ => vt

def Field.name : Field → String
  | .mk n _ _ _ _ _ _ => n

def Field.path : Field → String
  | .mk _ p _ _ _ _ _ => p

def Field.ftype : Field → FieldType
  | .mk _ _ ft _ _ _ _ => ft

def Field.validation : Field → ValidationRules
  | .mk _ _ _ v _ _ _ => v

def Field.errorsCustom : Field → Bool
  | .mk _ _ _ _ e _ _ => e

def Field.zodRef : Field → Option ZodType
  | .mk _ _ _ _ _ z _ => z

def Field.value : Field → Option JsValue
  | .mk _ _ _ _ _ _ v => v

/-- The flat `type` key of a field object. -/
def Field.typeK (f : Field) : ElemKind := f.ftype.typeK

/-- `field.type = k` on a field object. -/
def Field.withType : Field → ElemKind → Field
  | .mk n p ft v e z va, k => .mk n p (ft.withType k) v e z va

/-- JavaScript `s.charAt(0).toUpperCase() + s.slice(1)` (enum option
labels). -/
def capitalizeJs (s : String) : String :=
  match s.data with
  | [] => ""
  | c :: rest => String.mk (c.toUpper :: rest)

/-- The string branch of `mapZodTypeToHtmlElement`
(schema-parser lines 11-26): walk `_def.checks` in order and return on the
first `email`, `url`, `uuid`, or `min`-with-value-at-least-100 check;
otherwise fall through to `{ type: 'text' }`. -/
def stringElement : List StrCheck → FieldType
  | [] => FieldType.base .text
  | c :: rest =>
    match c with
    | .email _ => FieldType.base .email
    | .url _ => FieldType.base .url
    | .uuid _ =>
      .mk .text (some "^[0-9a-fA-F]\x7b8\x7d-[0-9a-fA-F]\x7b4\x7d-[0-9a-fA-F]\x7b4\x7d-[0-9a-fA-F]\x7b4\x7d-[0-9a-fA-F]\x7b12\x7d$")
        none none [] none [] none false
    | .min v _ => if 100 ≤ v then FieldType.base .textarea else stringElement rest
    | .max _ _ => stringElement rest
    | .regex _ _ => stringElement rest

/-- `checks.find(c => c.kind === 'min')` on a number node's checks. -/
def findNumMin : List NumCheck → Option Int
  | [] => none
  | .min v _ :: _ => some v
  | _ :: rest => findNumMin rest

/-- `checks.find(c => c.kind === 'max')` on a number node's checks. -/
def findNumMax : List NumCheck → Option Int
  | [] => none
  | .max v _ :: _ => some v
  | _ :: rest => findNumMax rest

/-- The number branch of `mapZodTypeToHtmlElement`
(schema-parser lines 28-43): if both a min and a max check are found and
`max - min <= 10`, a range element carrying both bounds; otherwise a plain
number element. -/
def numberElement (checks : List NumCheck) : FieldType :=
  match findNumMin checks, findNumMax checks with
  | some m, some M =>
    if M - m ≤ 10 then .mk .range none (some m) (some M) [] none [] none false
    else FieldType.base .number
  | _, _ => FieldType.base .number

/-- The union branch's option list: one entry per alternative with a
positional value, the label `Option i+1`, and the alternative schema. -/
def unionOptions (options : List ZodType) : List OptionEntry :=
  options.enum.map fun iv =>
    ⟨toString iv.fst, "Option " ++ toString (iv.fst + 1), some iv.snd⟩

mutual
/-- `mapZodTypeToHtmlElement` of `src/core/schema-parser.js`: map a zod
node to the type-specific part of a field definition.  Branches follow the
source's `instanceof` chain; the final fallthrough returns the single-line
text element.  (`File` instances are recognized by class name; refined
`ZodEffects` recurse into the wrapped schema; nullable/optional wrappers
recurse and set `optional`.) -/
def mapZodTypeToHtmlElement : ZodType → String → FieldType
  | .zstring checks, _ => stringElement checks
  | .znumber checks, _ => numberElement checks
  | .zboolean, _ => FieldType.base .checkbox
  | .zdate, _ => FieldType.base .date
  | .zenum values, _ =>
    .mk .select none none none (values.map fun v => ⟨v, capitalizeJs v, none⟩)
      none [] none false
  | .zarray item, path =>
    .mk .array none none none [] (some (mapZodTypeToHtmlElement item (path ++ ".items")))
      [] none false
  | .zobject shape, path =>
    .mk .object none none none [] none (parseSchemaFields shape path) none false
  | .zunion options, _ =>
    .mk .radio none none none (unionOptions options) none [] none false
  | .zrecord valueType, path =>
    .mk .record none none none [] none []
      (some (mapZodTypeToHtmlElement valueType (path ++ ".values"))) false
  | .zeffects effectType inner, path =>
    if effectType == "refinement" then mapZodTypeToHtmlElement inner path
    else FieldType.base .text
  | .znullable inner, path => (mapZodTypeToHtmlElement inner path).withOptional
  | .zoptional inner, path => (mapZodTypeToHtmlElement inner path).withOptional
  | .zinstance clsName, _ =>
    if clsName == "File" then FieldType.base .file else FieldType.base .text
  | .zunknown, _ => FieldType.base .text

/-- The property loop of `parseSchema` (schema-parser lines 198-214): one
field per declared property, in declaration order, with
`fieldPath = basePath ? basePath + '.' + key : key`. -/
def parseSchemaFields : List (String × ZodType) → String → List Field
  | [], _ => []
  | (key, t) :: rest, basePath =>
    let fieldPath := if basePath == "" then key else basePath ++ "." ++ key
    Field.mk key fieldPath (mapZodTypeToHtmlElement t fieldPath)
        (extractValidationRules t) false (some t) none
      :: parseSchemaFields rest basePath

/-- `extractValidationRules` of `src/core/schema-parser.js`: fold a node's
checks into the normalized rule bag; optional/nullable wrappers recurse and
force `required = false`; refined nodes recurse transparently; everything
else is `required = true` with no other keys. -/
def extractValidationRules : ZodType → ValidationRules
  | .zstring checks =>
    checks.foldl
      (fun r c =>
        match c with
        | .min v _ => { r with minLength := some v }
        | .max v _ => { r with maxLength := some v }
        | .email _ => { r with email := true }
        | .url _ => { r with url := true }
        | .uuid _ => r
        | .regex src _ => { r with pattern := some src })
      ValidationRules.base
  | .znumber checks =>
    checks.foldl
      (fun r c =>
        match c with
        | .min v _ => { r with min := some v }
        | .max v _ => { r with max := some v }
        | .int => { r with integer := true }
        | .multipleOf v => { r with step := some v })
      ValidationRules.base
  | .zoptional inner => { extractValidationRules inner with required := false }
  | .znullable inner => { extractValidationRules inner with required := false }
  | .zeffects effectType inner =>
    if effectType == "refinement" then extractValidationRules inner
    else ValidationRules.base
  | _ => ValidationRules.base
end

/-- `parseSchema` of `src/core/schema-parser.js`: only `ZodObject` nodes
produce fields; every other node yields the empty field map. -/
def parseSchema (schema : ZodType) (basePath : String) : List Field :=
  match schema with
  | .zobject shape => parseSchemaFields shape basePath
  | _ => []

/-! ## Validation bridge (`src/core/validation.js`) -/

/-- JavaScript `String.prototype.split` with a single-character separator,
on the character list of a string.  (`"".split(sep)` is `[""]`, a trailing
separator yields a trailing empty part.) -/
def splitOnChar (sep : Char) : List Char → List (List Char)
  | [] => [[]]
  | c :: rest =>
    if c = sep then [] :: splitOnChar sep rest
    else
      match splitOnChar sep rest with
      | [] => [[c]]
      | g :: gs => (c :: g) :: gs

/-- `fieldPath.split('.')` as used by `validateField`. -/
def splitDots (s : String) : List String :=
  (splitOnChar '.' s.data).map String.mk

/-- `err.path.join('.')` as used by `formatZodErrors`. -/
def joinDots : List String → String
  | [] => ""
  | p :: rest => rest.foldl (fun acc q => acc ++ "." ++ q) p

/-- Property read on a JavaScript object: the value of the first entry with
the given key, `undefined` when absent. -/
def jsGet : List (String × JsValue) → String → JsValue
  | [], _ => .undef
  | (k, v) :: rest, key => if k == key then v else jsGet rest key

/-- One entry of a `ZodError`'s `errors` list: the failing path and the
reported message. -/
structure Issue : Type where
  path : List String
  message : String
deriving DecidableEq, Repr

/-- Modelled from the spec: zod's e-mail format check (the repository
delegates it to the external zod library).  Reduced to the structural
essentials of zod's e-mail pattern: a single `@` separating a non-empty
local part from a domain of at least two non-empty dot-separated labels. -/
def emailOk (s : String) : Bool :=
  match splitOnChar '@' s.data with
  | [lp, dom] =>
    !lp.isEmpty &&
      (let labels := splitOnChar '.' dom
       decide (2 ≤ labels.length) && labels.all (fun l => !l.isEmpty))
  | _ => false

/-- The issues zod reports for a string value against a string node's
checks: one issue per failing check, in check order, with the check's
custom message or zod's default message.  (`url`, `uuid` and `regex`
checks are outside the fragment the validation-bridge claims exercise and
are modelled as passing.) -/
def strCheckIssues (checks : List StrCheck) (s : String) : List Issue :=
  checks.filterMap fun c =>
    match c with
    | .min n msg =>
      if s.length < n then
        some ⟨[], msg.getD ("String must contain at least " ++ toString n ++ " character(s)")⟩
      else none
    | .max n msg =>
      if n < s.length then
        some ⟨[], msg.getD ("String must contain at most " ++ toString n ++ " character(s)")⟩
      else none
    | .email msg => if emailOk s then none else some ⟨[], msg.getD "Invalid email"⟩
    | .url _ => none
    | .uuid _ => none
    | .regex _ _ => none

/-- The issues zod reports for a number value against a number node's
checks (`int` and `multipleOf` are trivially satisfied in the integer
model). -/
def numCheckIssues (checks : List NumCheck) (n : Int) : List Issue :=
  checks.filterMap fun c =>
    match c with
    | .min v msg =>
      if n < v then
        some ⟨[], msg.getD ("Number must be greater than or equal to " ++ toString v)⟩
      else none
    | .max v msg =>
      if v < n then
        some ⟨[], msg.getD ("Number must be less than or equal to " ++ toString v)⟩
      else none
    | .int => none
    | .multipleOf _ => none

mutual
/-- Modelled behavior of the external zod validator (`schema.parse`),
restricted to the fragment the validation bridge exercises: objects of
string/number/boolean/enum fields with optional/nullable and refinement
wrappers.  The result is the `errors` list of the thrown `ZodError`
(`[]` when parsing succeeds): a missing required value reports `Required`,
a wrong runtime type reports an `invalid_type` issue, and each failing
check reports its configured or default message; object parsing prefixes
each child issue's path with the property key.  Arrays, unions, records,
instances and unknown nodes are outside the exercised fragment and are
modelled as accepting (and refinement functions themselves are not run). -/
def zodParse : ZodType → JsValue → List Issue
  | .zstring checks, v =>
    match v with
    | .str s => strCheckIssues checks s
    | .undef => [⟨[], "Required"⟩]
    | _ => [⟨[], "Invalid type: expected string"⟩]
  | .znumber checks, v =>
    match v with
    | .num n => numCheckIssues checks n
    | .undef => [⟨[], "Required"⟩]
    | _ => [⟨[], "Invalid type: expected number"⟩]
  | .zboolean, v =>
    match v with
    | .boolean _ => []
    | .undef => [⟨[], "Required"⟩]
    | _ => [⟨[], "Invalid type: expected boolean"⟩]
  | .zenum values, v =>
    match v with
    | .str s => if values.contains s then [] else [⟨[], "Invalid enum value"⟩]
    | .undef => [⟨[], "Required"⟩]
    | _ => [⟨[], "Invalid type: expected enum value"⟩]
  | .zobject shape, v =>
    match v with
    | .obj entries => zodParseShape shape entries
    | .undef => [⟨[], "Required"⟩]
    | _ => [⟨[], "Invalid type: expected object"⟩]
  | .zoptional inner, v =>
    match v with
    | .undef => []
    | _ => zodParse inner v
  | .znullable inner, v =>
    match v with
    | .nullv => []
    | _ => zodParse inner v
  | .zeffects _ inner, v => zodParse inner v
  | _, _ => []

/-- The per-property loop of zod object parsing: each declared property is
parsed against the object's value at that key (`undefined` when absent)
and its issues get the key prepended to their paths. -/
def zodParseShape : List (String × ZodType) → List (String × JsValue) → List Issue
  | [], _ => []
  | (key, sub) :: rest, entries =>
    (zodParse sub (jsGet entries key)).map (fun i => ⟨key :: i.path, i.message⟩)
      ++ zodParseShape rest entries
end

/-- JavaScript assignment `m[k] = v` on a plain object represented as an
insertion-ordered association list (an object's keys are distinct): an
existing key keeps its position and gets the new value, a new key is
appended. -/
def objAssign : List (String × String) → String → String → List (String × String)
  | [], k, v => [(k, v)]
  | (k0, v0) :: rest, k, v =>
    if k0 == k then (k0, v) :: rest else (k0, v0) :: objAssign rest k v

/-- Property read on the formatted-error object. -/
def jsGetStr : List (String × String) → String → Option String
  | [], _ => none
  | (k, v) :: rest, key => if k == key then some v else jsGetStr rest key

/-- `formatZodErrors` of `src/core/validation.js` (lines 74-86): walk the
error list, join each failure's path with `.`, and store its message under
that key (later failures for the same path overwrite earlier ones). -/
def formatZodErrors (issues : List Issue) : List (String × String) :=
  issues.foldl (fun acc e => objAssign acc (joinDots e.path) e.message) []

/-- The result object of `validateField`: `{valid: true}` on success and
`{valid: false, errors: ...}` on a `ZodError`.  The `message` component
mirrors reading a `message` property on the returned object: the source
never sets one, so it is `none` (JavaScript `undefined`) in both cases. -/
structure FieldCheckResult : Type where
  valid : Bool
  errors : List (String × String)
  message : Option String
deriving DecidableEq, Repr

/-- `schema.shape[fieldName]`: the named property's sub-schema of an object
schema; `none` models the lookup failing (non-object schema or missing
property), in which case the source code throws while building the
single-field schema. -/
def shapeGet : ZodType → String → Option ZodType
  | .zobject shape, key => (shape.find? fun p => p.fst == key).map Prod.snd
  | _, _ => none

/-- `validateField` of `src/core/validation.js` (lines 91-122): split the
field path on dots, take the last segment as the field name, build an
object schema containing just that field (for a single-segment path, the
named field's own sub-schema; otherwise the passed schema itself), and
parse `{fieldName: value}` against it.  `none` models the non-`ZodError`
throw when the sub-schema lookup fails. -/
def validateField (schema : ZodType) (fieldPath : String) (value : JsValue) :
    Option FieldCheckResult :=
  let pathParts := splitDots fieldPath
  let fieldName := pathParts.getLastD ""
  let fieldObject := JsValue.obj [(fieldName, value)]
  let fieldSchemaOpt : Option ZodType :=
    if pathParts.length == 1 then
      (shapeGet schema fieldName).map fun sub => .zobject [(fieldName, sub)]
    else some (.zobject [(fieldName, schema)])
  fieldSchemaOpt.map fun fieldSchema =>
    let issues := zodParse fieldSchema fieldObject
    if issues.isEmpty then ⟨true, [], none⟩
    else ⟨false, formatZodErrors issues, none⟩

/-! ## Form generator field-options merge (`src/core/form-generator.js`) -/

/-- A caller-supplied per-field hint bag (`options.fieldOptions[name]`).
Each component models the presence (`some`) or absence (`none`) of the
corresponding key in the bag; the bags are restricted to the descriptor
keys the core itself reads (`type`, `validation`, `value`) — purely
presentational keys (label, placeholder, ...) only flow into markup and are
not needed by any claim. -/
structure FieldHints : Type where
  type : Option ElemKind
  validation : Option ValidationRules
  value : Option JsValue

/-- The spread `{...fields[fieldName], ...fieldOptions}` of `generate`
(form-generator lines 31-34): every key present in the hint bag overwrites
the field's key; absent keys leave the field's value in place. -/
def mergeField (f : Field) (h : FieldHints) : Field :=
  match f with
  | .mk nm pa ft vr ec zr va =>
    .mk nm pa
      (match h.type with | some k => ft.withType k | none => ft)
      (match h.validation with | some r => r | none => vr)
      ec zr
      (match h.value with | some v => some v | none => va)

/-- The `fieldOptions` loop of `generate` (form-generator lines 28-37):
for each `(fieldName, hints)` entry, if a field of that name exists it is
replaced by the shallow merge, keeping its position (JavaScript assignment
to an existing key of the name-keyed field object; the names produced by
`parseSchema` are the distinct keys of the schema's shape). -/
def applyFieldOptions (fields : List Field) (fieldOptions : List (String × FieldHints)) :
    List Field :=
  fieldOptions.foldl
    (fun fs kv => fs.map fun f => if f.name == kv.fst then mergeField f kv.snd else f)
    fields

/-- The field-definition part of `generate` (form-generator lines 24-37):
parse the schema, then apply the caller's field options.  The returned
`fields` of `generate` is exactly this value: the subsequent rendering pass
writes no field key to a new value (see `renderField_fst` below). -/
def generateFields (schema : ZodType) (fieldOptions : List (String × FieldHints)) :
    List Field :=
  applyFieldOptions (parseSchema schema "") fieldOptions

/-! ## Compiled conditional-visibility behavior (`src/integrations/htmx.js`) -/

/-- One conditional rule as compiled by `generateConditionalLogic`: the
map key (the target field) plus the rule's `show` (the controlling field's
name), `equals` and `notEquals` keys. -/
structure CondRule : Type where
  target : String
  controlling : String
  equals : Option String
  notEquals : Option String
deriving DecidableEq, Repr

/-- The controlling field's current value as the compiled script reads it:
`controlField.checked` for checkbox inputs, `controlField.value` (a string)
otherwise. -/
inductive CtrlVal : Type where
  | raw (s : String)
  | checked (b : Bool)
deriving DecidableEq, Repr

/-- JavaScript strict equality `v === "lit"` between the read control value
and a string literal interpolated into the script (a checkbox's boolean is
never strictly equal to a string). -/
def ctrlEq : CtrlVal → String → Bool
  | .raw s, lit => s == lit
  | .checked _, _ => false

/-- The DOM state of the target field that the compiled script manipulates:
whether the field container is displayed, and whether its inputs carry the
`disabled` attribute (disabled inputs are skipped by validation and not
submitted). -/
structure TargetVisState : Type where
  displayBlock : Bool
  inputsDisabled : Bool
deriving DecidableEq, Repr

/-- The `shouldShow` computation of the compiled `updateVisibility`
handler (htmx.js lines 249-264): starts `false` and is set by the
`equals` test and/or the `notEquals` test, whichever the rule carries. -/
def condShouldShow (r : CondRule) (v : CtrlVal) : Bool :=
  (match r.equals with | some e => ctrlEq v e | none => false) ||
  (match r.notEquals with | some n => !ctrlEq v n | none => false)

/-- The effect of one `updateVisibility` run (htmx.js lines 266-292): the
target's display and opacity follow `shouldShow`, and every input inside
the target is enabled when shown and disabled when hidden. -/
def condChangeStep (r : CondRule) (v : CtrlVal) (_s : TargetVisState) : TargetVisState :=
  let sw := condShouldShow r v
  ⟨sw, !sw⟩

/-- The initial-state assignment of the compiled script (htmx.js lines
297-302): `initialShow` uses the `equals` test when `equals` is defined and
the `notEquals` test otherwise (with JavaScript interpolating an absent
`notEquals` as the string `undefined`), and only `display`/`opacity` are
set — the inputs' disabled state is left as it was. -/
def condInitStep (r : CondRule) (v : CtrlVal) (s : TargetVisState) : TargetVisState :=
  let sw :=
    match r.equals with
    | some e => ctrlEq v e
    | none =>
      match r.notEquals with
      | some n => !ctrlEq v n
      | none => !ctrlEq v "undefined"
  ⟨sw, s.inputsDisabled⟩

/-- The claimed invariant for a conditional rule: the target is displayed
with enabled inputs exactly when the predicate holds on the controlling
value, and hidden with disabled inputs exactly when it does not. -/
def condConsistent (r : CondRule) (v : CtrlVal) (s : TargetVisState) : Prop :=
  s.displayBlock = condShouldShow r v ∧ s.inputsDisabled = !condShouldShow r v

/-! ## Renderer (`src/core/renderer.js`, `src/elements/index.js`)

Each element renderer is modelled as a function from the field object and
the render options to the pair of the field object's state after the call
and the produced markup: the only property write any renderer performs is
`field.type = ...` in the `email`/`url` renderers, so the post-state is the
input field except possibly for `type`.  The nested-object / array / record
renderers render fresh shallow copies (`{...subfield, ...}`) of their
children, whose post-states are discarded.  The HTML templates are
abbreviated to their structural content (tag, attributes, children); no
claim depends on the literal template text. -/

/-- An attribute value as handled by `attributesToString`. -/
inductive AttrVal : Type where
  | s (v : String)
  | i (v : Int)
  | b (v : Bool)

/-- `attributesToString` of `src/elements/index.js` (lines 8-19): boolean
`true` renders as the bare key, boolean `false` is dropped, and any other
value renders as `key="value"`. -/
def attributesToString (attrs : List (String × AttrVal)) : String :=
  String.intercalate " "
    (attrs.filterMap fun kv =>
      match kv.snd with
      | .b true => some kv.fst
      | .b false => none
      | .s v => some (kv.fst ++ "=\"" ++ v ++ "\"")
      | .i n => some (kv.fst ++ "=\"" ++ toString n ++ "\""))

/-- JavaScript truthiness of a runtime value. -/
def jsTruthy : JsValue → Bool
  | .str s => !s.isEmpty
  | .num n => n != 0
  | .boolean b => b
  | .obj _ => true
  | .arr _ => true
  | .nullv => false
  | .undef => false

/-- The HTML `type` string of an element kind. -/
def kindStr : ElemKind → String
  | .text => "text"
  | .email => "email"
  | .url => "url"
  | .textarea => "textarea"
  | .number => "number"
  | .range => "range"
  | .checkbox => "checkbox"
  | .date => "date"
  | .select => "select"
  | .radio => "radio"
  | .file => "file"
  | .object => "object"
  | .array => "array"
  | .record => "record"
  | .stars => "stars"

/-- Render options as the element renderers consume them (submitted/default
values by name and whether HTMX attributes are attached; theming and
template options only select markup wrappers). -/
structure RenderOptions : Type where
  values : List (String × JsValue)
  htmx : Bool

/-- The label text of a field: `field.label || capitalize(field.name)`
(the camel-case spacing of the source's regex replace is abbreviated
away; hint-supplied labels are outside the modelled hint keys). -/
def labelTextOf (f : Field) : String := capitalizeJs f.name

/-- `createFieldWrapper` (elements lines 24-51): label + input + error slot
in a field container carrying `field-<id>`. -/
def createFieldWrapper (f : Field) (inputHtml : String) : String :=
  "<div class=\"zf-field\" id=\"field-" ++ f.name ++ "\"><label>" ++ labelTextOf f
    ++ "</label>" ++ inputHtml ++ "<div class=\"zf-error\"></div></div>"

/-- The attribute list shared by the text-like renderers: type, id, name,
`required` when the rules say so, length bounds and pattern when present. -/
def textAttrs (f : Field) : List (String × AttrVal) :=
  [("type", AttrVal.s (kindStr f.typeK)), ("id", AttrVal.s f.name), ("name", AttrVal.s f.name)]
    ++ (if f.validation.required then [("required", AttrVal.b true)] else [])
    ++ (match f.validation.minLength with
        | some n => [("minlength", AttrVal.i (Int.ofNat n))] | none => [])
    ++ (match f.validation.maxLength with
        | some n => [("maxlength", AttrVal.i (Int.ofNat n))] | none => [])
    ++ (match f.validation.pattern with
        | some p => [("pattern", AttrVal.s p)] | none => [])

/-- The rendered value of an input: `field.value || options.values?.[name] || ''`. -/
def displayValue (f : Field) (o : RenderOptions) : JsValue :=
  let v1 := f.value.getD .undef
  let v2 := if jsTruthy v1 then v1 else jsGet o.values f.name
  if jsTruthy v2 then v2 else .str ""

/-- Text of a value when interpolated into markup. -/
def jsValueText : JsValue → String
  | .str s => s
  | .num n => toString n
  | .boolean b => if b then "true" else "false"
  | _ => ""

/-- `text` renderer (elements lines 56-86): no field write. -/
def textRender (f : Field) (o : RenderOptions) : Field × String :=
  (f, createFieldWrapper f
    ("<input " ++ attributesToString (textAttrs f)
      ++ " value=\"" ++ jsValueText (displayValue f o) ++ "\">"))

/-- `email` renderer (elements lines 706-710): overwrites `field.type`
with `'email'` on the field object itself, then delegates to `text`. -/
def emailRender (f : Field) (o : RenderOptions) : Field × String :=
  textRender (f.withType .email) o

/-- `url` renderer (elements lines 715-719): overwrites `field.type` with
`'url'`, then delegates to `text`. -/
def urlRender (f : Field) (o : RenderOptions) : Field × String :=
  textRender (f.withType .url) o

/-- `textarea` renderer (elements lines 91-229): no field write. -/
def textareaRender (f : Field) (o : RenderOptions) : Field × String :=
  (f, createFieldWrapper f
    ("<textarea " ++ attributesToString (textAttrs f) ++ ">"
      ++ jsValueText (displayValue f o) ++ "</textarea>"))

/-- `select` renderer (elements lines 234-260): no field write. -/
def selectRender (f : Field) (_o : RenderOptions) : Field × String :=
  (f, createFieldWrapper f
    ("<select name=\"" ++ f.name ++ "\">"
      ++ String.join ((f.ftype.optionsK).map fun e =>
           "<option value=\"" ++ e.value ++ "\">" ++ e.label ++ "</option>")
      ++ "</select>"))

/-- `checkbox` renderer (elements lines 265-308): no field write. -/
def checkboxRender (f : Field) (o : RenderOptions) : Field × String :=
  (f, "<div class=\"zf-field\" id=\"field-" ++ f.name ++ "\"><input type=\"checkbox\" name=\""
    ++ f.name ++ "\"" ++ (if jsTruthy (displayValue f o) then " checked" else "")
    ++ "><div class=\"zf-error\"></div></div>")

/-- `radio` renderer (elements lines 313-325): no field write. -/
def radioRender (f : Field) (_o : RenderOptions) : Field × String :=
  (f, createFieldWrapper f
    (String.join ((f.ftype.optionsK).map fun e =>
      "<input type=\"radio\" name=\"" ++ f.name ++ "\" value=\"" ++ e.value ++ "\">" ++ e.label)))

/-- `file` renderer (elements lines 330-499): no field write. -/
def fileRender (f : Field) (_o : RenderOptions) : Field × String :=
  (f, createFieldWrapper f
    ("<input type=\"file\" name=\"" ++ f.name ++ "\""
      ++ (if f.validation.required then " required" else "") ++ ">"))

/-- `number` renderer (elements lines 504-534): no field write. -/
def numberRender (f : Field) (_o : RenderOptions) : Field × String :=
  (f, createFieldWrapper f
    ("<input type=\"number\" name=\"" ++ f.name ++ "\""
      ++ (if f.validation.required then " required" else "")
      ++ (match f.validation.min with
          | some n => " min=\"" ++ toString n ++ "\"" | none => "")
      ++ (match f.validation.max with
          | some n => " max=\"" ++ toString n ++ "\"" | none => "") ++ ">"))

/-- `range` renderer (elements lines 539-668): no field write; the bounds
come from the validation rules, with markup defaults when absent. -/
def rangeRender (f : Field) (_o : RenderOptions) : Field × String :=
  (f, createFieldWrapper f
    ("<input type=\"range\" name=\"" ++ f.name
      ++ "\" min=\"" ++ toString ((f.validation.min.getD (f.ftype.minK.getD 0)))
      ++ "\" max=\"" ++ toString ((f.validation.max.getD (f.ftype.maxK.getD 100))) ++ "\">"))

/-- `date` renderer (elements lines 673-701): no field write. -/
def dateRender (f : Field) (_o : RenderOptions) : Field × String :=
  (f, createFieldWrapper f
    ("<input type=\"date\" name=\"" ++ f.name ++ "\""
      ++ (if f.validation.required then " required" else "") ++ ">"))

/-- `stars` renderer (elements lines 861-944): no field write. -/
def starsRender (f : Field) (o : RenderOptions) : Field × String :=
  (f, createFieldWrapper f
    ("<input type=\"hidden\" name=\"" ++ f.name ++ "\" value=\""
      ++ jsValueText (displayValue f o) ++ "\">"))

/-- The renderer dispatch: `renderField` of `src/core/renderer.js` looks
the field's `type` up in the element table and calls that renderer (with
the `text` renderer as fallback); the `object`/`array`/`record` renderers
perform the same table dispatch (`module.exports[nestedField.type]`) on the
fresh per-child copies they build, so those three renderers are given
inline here, recursing through this dispatcher exactly as the source
recurses through the table.  The returned `Field` is the state of the
passed field object after the call. -/
def renderDispatch (f : Field) (o : RenderOptions) : Field × String :=
  match f.typeK with
  | .email => emailRender f o
  | .url => urlRender f o
  | .textarea => textareaRender f o
  | .select => selectRender f o
  | .checkbox => checkboxRender f o
  | .radio => radioRender f o
  | .file => fileRender f o
  | .number => numberRender f o
  | .range => rangeRender f o
  | .date => dateRender f o
  | .stars => starsRender f o
  | .object =>
    -- `object` renderer (elements lines 724-756): each child is rendered
    -- on a fresh copy `{...subfield, name: name[child], path: path.child}`;
    -- the copies' post-states are discarded and the field itself is
    -- returned unchanged.
    let inner := f.ftype.fieldsK.attach.map fun sf =>
      match sf with
      | ⟨Field.mk n2 _p2 ft2 v2 e2 z2 va2, _h⟩ =>
        (renderDispatch
          (Field.mk (f.name ++ "[" ++ n2 ++ "]") (f.path ++ "." ++ n2) ft2 v2 e2 z2 va2)
          o).snd
    (f, "<fieldset name=\"" ++ f.name ++ "\"><legend>" ++ labelTextOf f ++ "</legend>"
      ++ String.join inner ++ "</fieldset>")
  | .array =>
    -- `array` renderer (elements lines 761-796): one fresh item field
    -- `{...field.itemType, name: name[i], path: path[i], value: item}` per
    -- current value; an absent `itemType` spreads to an empty object whose
    -- `type` is undefined and falls through to the text renderer.
    let values := match displayValue f o with | .arr l => l | _ => []
    let items := values.enum.map fun iv =>
      let itemField := fun ft =>
        Field.mk (f.name ++ "[" ++ toString iv.fst ++ "]")
          (f.path ++ "[" ++ toString iv.fst ++ "]") ft ValidationRules.base false none
          (some iv.snd)
      match hit : f.ftype.itemTypeK with
      | some it => (renderDispatch (itemField it) o).snd
      | none => (textRender (itemField (FieldType.base .text)) o).snd
    (f, createFieldWrapper f
      ("<div id=\"" ++ f.name ++ "-items\">" ++ String.join items
        ++ "</div><button class=\"zf-add-item\">Add Item</button>"))
  | .record =>
    -- `record` renderer (elements lines 801-856): key/value pairs, with a
    -- single empty pair when there are none; each value is rendered on a
    -- fresh copy `{...field.valueType, name: name[i].value, value}`.
    let entries := match displayValue f o with | .obj es => es | _ => []
    let items := if entries.isEmpty then [("", JsValue.str "")] else entries
    let rendered := items.enum.map fun ie =>
      let valueField := fun ft =>
        Field.mk (f.name ++ "[" ++ toString ie.fst ++ "].value") (f.path) ft
          ValidationRules.base false none (some ie.snd.snd)
      let valueHtml :=
        match hvt : f.ftype.valueTypeK with
        | some vt => (renderDispatch (valueField vt) o).snd
        | none => (textRender (valueField (FieldType.base .text)) o).snd
      "<div class=\"zf-record-item\"><input type=\"text\" name=\"" ++ f.name ++ "["
        ++ toString ie.fst ++ "].key\" value=\"" ++ ie.snd.fst ++ "\">" ++ valueHtml ++ "</div>"
    (f, createFieldWrapper f (String.join rendered))
  | .text => textRender f o
termination_by sizeOf f.ftype
decreasing_by
  · cases f with
    | mk n p ft v e z va =>
      cases ft with
      | mk k0 pa0 mi0 ma0 os0 it0 fs0 vt0 op0 =>
        simp only [Field.ftype, FieldType.fieldsK] at _h ⊢
        have h1 := List.sizeOf_lt_of_mem _h
        simp at h1 ⊢
        omega
  · cases f with
    | mk n p ft v e z va =>
      cases ft with
      | mk k0 pa0 mi0 ma0 os0 it0 fs0 vt0 op0 =>
        simp only [Field.ftype, FieldType.itemTypeK] at hit ⊢
        subst hit
        simp
        omega
  · cases f with
    | mk n p ft v e z va =>
      cases ft with
      | mk k0 pa0 mi0 ma0 os0 it0 fs0 vt0 op0 =>
        simp only [Field.ftype, FieldType.valueTypeK] at hvt ⊢
        subst hvt
        simp
        omega

/-- `renderField` of `src/core/renderer.js` (lines 106-130): template/class
preparation does not touch the field; the call is the element-table
dispatch. -/
def renderField (f : Field) (o : RenderOptions) : Field × String :=
  renderDispatch f o

/-! ## Example schemas and shape predicates used by the claim statements -/

/-- Is the node a `ZodObject` (the `schema instanceof z.ZodObject` test of
`parseSchema`)? -/
def isZodObjectB : ZodType → Bool
  | .zobject _ => true
  | _ => false

/-- Is the check one of the dedicated string-format checks (`email`, `url`,
`uuid`) that the string branch of `mapZodTypeToHtmlElement` returns on? -/
def isStrFormatCheck : StrCheck → Bool
  | .email _ => true
  | .url _ => true
  | .uuid _ => true
  | _ => false

/-- The shapes `mapZodTypeToHtmlElement` recognizes: everything except a
non-refinement `ZodEffects` wrapper, a non-`File` instance node, and a node
of unknown structural type. -/
def recognizedShape : ZodType → Bool
  | .zeffects effectType _ => effectType == "refinement"
  | .zinstance clsName => clsName == "File"
  | .zunknown => false
  | _ => true

/-- The schema `z.object({name: z.string().min(2, '...')})` of the spec's
single-field validation example (as in `tests/form-generator.test.js`). -/
def nameMinSchema : ZodType :=
  .zobject [("name", .zstring [.min 2 (some "Name must contain at least 2 characters")])]

/-- The schema `z.object({name: min(2), email: email()})` of the spec's
whole-submission example. -/
def nameEmailSchema : ZodType :=
  .zobject
    [("name", .zstring [.min 2 (some "Name must contain at least 2 characters")]),
     ("email", .zstring [.email (some "Please enter a valid email address")])]

/-- The submission `{name: "J", email: "not-an-email"}`. -/
def nameEmailInput : JsValue :=
  .obj [("name", .str "J"), ("email", .str "not-an-email")]

/-- A two-property shape used to instantiate universally quantified
claims. -/
def exShapeTwo : List (String × ZodType) :=
  [("name", .zstring [.min 2 (some "Name must contain at least 2 characters")]),
   ("age", .znumber [])]

/-- The example rule of the spec: `companyName` is shown when
`employmentStatus` equals `employed`. -/
def employmentRule : CondRule :=
  ⟨"companyName", "employmentStatus", some "employed", none⟩

/-! ## Theorems -/

theorem string_data_append (a b : String) : (a ++ b).data = a.data ++ b.data := by
  cases a
  cases b
  rfl

theorem string_append_cancel_left {a b c : String} (h : a ++ b = a ++ c) : b = c := by
  have hd : a.data ++ b.data = a.data ++ c.data := by
    have h2 := congrArg String.data h
    simpa [string_data_append] using h2
  have hbc : b.data = c.data := List.append_cancel_left hd
  cases b
  cases c
  simp at hbc
  exact congrArg String.mk hbc

theorem fieldPath_injective (bp : String) :
    Function.Injective (fun k => if bp == "" then k else bp ++ "." ++ k) := by
  intro k1 k2 h
  by_cases hbp : bp == ""
  · simpa [hbp] using h
  · simp only [hbp, if_neg, Bool.false_eq_true, if_false] at h
    exact string_append_cancel_left h

theorem parseSchemaFields_names (shape : List (String × ZodType)) (bp : String) :
    (parseSchemaFields shape bp).map Field.name = shape.map Prod.fst := by
  induction shape with
  | nil => rfl
  | cons kv rest ih =>
    obtain ⟨k, t⟩ := kv
    simp [parseSchemaFields, Field.name, ih]

theorem parseSchemaFields_paths (shape : List (String × ZodType)) (bp : String) :
    (parseSchemaFields shape bp).map Field.path =
      shape.map (fun kv => if bp == "" then kv.fst else bp ++ "." ++ kv.fst) := by
  induction shape with
  | nil => rfl
  | cons kv rest ih =>
    obtain ⟨k, t⟩ := kv
    simp [parseSchemaFields, Field.path, ih]

/-- Claim C1: for every object-shaped schema node with N declared
properties (an object's property keys being distinct), `parseSchema`
returns exactly N field descriptors, named in declaration order, and all
descriptor paths are pairwise distinct. -/
theorem claim1_parseSchema_descriptors (shape : List (String × ZodType)) (bp : String)
    (h : (shape.map Prod.fst).Nodup) :
    (parseSchema (.zobject shape) bp).length = shape.length ∧
    (parseSchema (.zobject shape) bp).map Field.name = shape.map Prod.fst ∧
    ((parseSchema (.zobject shape) bp).map Field.path).Nodup := by
  refine ⟨?_, ?_, ?_⟩
  · have hn := congrArg List.length (parseSchemaFields_names shape bp)
    simpa [parseSchema] using hn
  · simpa [parseSchema] using parseSchemaFields_names shape bp
  · have hp : (parseSchema (.zobject shape) bp).map Field.path =
        (shape.map Prod.fst).map (fun k => if bp == "" then k else bp ++ "." ++ k) := by
      simp [parseSchema, parseSchemaFields_paths shape bp, List.map_map]
    rw [hp]
    exact h.map (fieldPath_injective bp)

/-- Witness for C1 at a concrete two-property shape. -/
theorem claim1_witness :
    (exShapeTwo.map Prod.fst).Nodup ∧
    ((parseSchema (.zobject exShapeTwo) "").length = exShapeTwo.length ∧
     (parseSchema (.zobject exShapeTwo) "").map Field.name = exShapeTwo.map Prod.fst ∧
     ((parseSchema (.zobject exShapeTwo) "").map Field.path).Nodup) :=
  ⟨by decide, claim1_parseSchema_descriptors exShapeTwo "" (by decide)⟩

theorem applyFieldOptions_nil (fo : List (String × FieldHints)) :
    applyFieldOptions [] fo = [] := by
  induction fo with
  | nil => rfl
  | cons kv rest ih =>
    simp only [applyFieldOptions, List.foldl_cons, List.map_nil]
    simpa [applyFieldOptions] using ih

/-- Claim C10: `parseSchema` applied to any non-object schema node raises
no error and yields the empty field map, and form generation over such a
schema yields no fields for any field options. -/
theorem claim10_parseSchema_non_object (t : ZodType) (bp : String)
    (fo : List (String × FieldHints)) (h : isZodObjectB t = false) :
    parseSchema t bp = [] ∧ generateFields t fo = [] := by
  have hp : ∀ b : String, parseSchema t b = [] := by
    intro b
    cases t <;> simp_all [isZodObjectB, parseSchema]
  refine ⟨hp bp, ?_⟩
  simp [generateFields, hp "", applyFieldOptions_nil]

/-- Witness for C10 at a bare string schema. -/
theorem claim10_witness :
    isZodObjectB (.zstring []) = false ∧
    (parseSchema (.zstring []) "x" = [] ∧
     generateFields (.zstring []) [("name", ⟨some .textarea, none, none⟩)] = []) :=
  ⟨by decide, claim10_parseSchema_non_object _ "x" _ (by decide)⟩

/-- Counterexample to C5 as stated: a string node carrying both an e-mail
format check and a minimum-length check of 100 maps to the e-mail kind,
not to the multi-line kind, because the check loop returns on the first
special check it meets. -/
theorem claim5_counterexample :
    (mapZodTypeToHtmlElement (.zstring [.email none, .min 100 none]) "").typeK
        = ElemKind.email ∧
    (mapZodTypeToHtmlElement (.zstring [.email none, .min 100 none]) "").typeK
        ≠ ElemKind.textarea := by
  decide

/-- Claim C5 (amended): a string node carrying a minimum-length check of at
least 100 maps to the multi-line (textarea) kind, provided no e-mail, url
or uuid format check precedes that minimum-length check in the node's
check list (the check loop returns on the first special check, so an
earlier format check wins). -/
theorem claim5_min100_textarea (pre post : List StrCheck) (v : Nat) (msg : Option String)
    (path : String) (hv : 100 ≤ v)
    (hpre : ∀ c ∈ pre, isStrFormatCheck c = false) :
    (mapZodTypeToHtmlElement (.zstring (pre ++ .min v msg :: post)) path).typeK
      = ElemKind.textarea := by
  simp only [mapZodTypeToHtmlElement]
  induction pre with
  | nil => simp [stringElement, hv, FieldType.typeK, FieldType.base]
  | cons c rest ih =>
    have hc := hpre c (List.mem_cons_self c rest)
    have hrest : ∀ c' ∈ rest, isStrFormatCheck c' = false := fun c' hm =>
      hpre c' (List.mem_cons_of_mem c hm)
    cases c with
    | min w m =>
      by_cases hw : 100 ≤ w
      · simp [stringElement, hw, FieldType.typeK, FieldType.base]
      · simpa [stringElement, hw] using ih hrest
    | max w m => simpa [stringElement] using ih hrest
    | regex s m => simpa [stringElement] using ih hrest
    | email m => simp [isStrFormatCheck] at hc
    | url m => simp [isStrFormatCheck] at hc
    | uuid m => simp [isStrFormatCheck] at hc

/-- Witness for the amended C5 with a max-length check before the
qualifying min check. -/
theorem claim5_witness :
    100 ≤ 100 ∧ (∀ c ∈ [StrCheck.max 500 none], isStrFormatCheck c = false) ∧
    (mapZodTypeToHtmlElement
        (.zstring ([StrCheck.max 500 none] ++ .min 100 none :: [])) "").typeK
      = ElemKind.textarea :=
  ⟨by decide, by decide,
   claim5_min100_textarea [StrCheck.max 500 none] [] 100 none "" (by decide) (by decide)⟩

/-- Claim C6: a number node whose checks contain both a minimum and a
maximum (the first of each kind, as `checks.find` picks them) with
`max - min <= 10` maps to the range kind carrying both bounds; a number
node missing either bound, or whose span exceeds 10, maps to the plain
number kind. -/
theorem claim6_number_range (checks : List NumCheck) (path : String) :
    (∀ m M : Int, findNumMin checks = some m → findNumMax checks = some M →
      M - m ≤ 10 →
      mapZodTypeToHtmlElement (.znumber checks) path
        = .mk .range none (some m) (some M) [] none [] none false) ∧
    (∀ m M : Int, findNumMin checks = some m → findNumMax checks = some M →
      10 < M - m →
      mapZodTypeToHtmlElement (.znumber checks) path = FieldType.base .number) ∧
    (findNumMin checks = none ∨ findNumMax checks = none →
      mapZodTypeToHtmlElement (.znumber checks) path = FieldType.base .number) := by
  refine ⟨?_, ?_, ?_⟩
  · intro m M hm hM hspan
    simp [mapZodTypeToHtmlElement, numberElement, hm, hM, hspan]
  · intro m M hm hM hspan
    have : ¬ (M - m ≤ 10) := by omega
    simp [mapZodTypeToHtmlElement, numberElement, hm, hM, this]
  · intro hnone
    rcases hnone with hn | hn
    · simp [mapZodTypeToHtmlElement, numberElement, hn]
    · rcases h2 : findNumMin checks with _ | m2
      · simp [mapZodTypeToHtmlElement, numberElement, h2]
      · simp [mapZodTypeToHtmlElement, numberElement, h2, hn]

/-- Witness for C6 at `min=1, max=5` (range) and at a single bound
(number). -/
theorem claim6_witness :
    (findNumMin [NumCheck.min 1 none, NumCheck.max 5 none] = some 1 ∧
     findNumMax [NumCheck.min 1 none, NumCheck.max 5 none] = some 5 ∧
     (1 : Int) ≤ 5 - 1 + 9 ∧
     mapZodTypeToHtmlElement (.znumber [NumCheck.min 1 none, NumCheck.max 5 none]) ""
       = .mk .range none (some 1) (some 5) [] none [] none false) ∧
    (findNumMax [NumCheck.min 18 none] = none ∧
     mapZodTypeToHtmlElement (.znumber [NumCheck.min 18 none]) "" = FieldType.base .number) :=
  ⟨⟨by decide, by decide, by decide,
    (claim6_number_range [NumCheck.min 1 none, NumCheck.max 5 none] "").1 1 5
      (by decide) (by decide) (by decide)⟩,
   ⟨by decide,
    (claim6_number_range [NumCheck.min 18 none] "").2.2 (Or.inr (by decide))⟩⟩

/-- Claim C7: a schema node whose structural type matches none of the
recognized shapes maps, without error, to the single-line text element
(the bare `{ type: 'text' }` fallthrough). -/
theorem claim7_unknown_fallback (t : ZodType) (path : String)
    (h : recognizedShape t = false) :
    mapZodTypeToHtmlElement t path = FieldType.base .text := by
  cases t <;> simp_all [recognizedShape, mapZodTypeToHtmlElement]

/-- Witness for C7 at an unknown node, a transform-effects wrapper, and a
non-`File` instance node. -/
theorem claim7_witness :
    recognizedShape .zunknown = false ∧
    mapZodTypeToHtmlElement .zunknown "" = FieldType.base .text ∧
    mapZodTypeToHtmlElement (.zeffects "transform" .zboolean) "" = FieldType.base .text ∧
    mapZodTypeToHtmlElement (.zinstance "Blob") "" = FieldType.base .text :=
  ⟨by decide, claim7_unknown_fallback .zunknown "" (by decide),
   claim7_unknown_fallback (.zeffects "transform" .zboolean) "" (by decide),
   claim7_unknown_fallback (.zinstance "Blob") "" (by decide)⟩

/-- Counterexample to C2 as stated: a hint bag carrying a `validation` key
is shallow-merged like any other key, so it does overwrite the field's
constraint bag extracted from the schema. -/
theorem claim2_counterexample :
    (generateFields nameMinSchema [("name", ⟨none, some ValidationRules.base, none⟩)]).map
        Field.validation
      ≠ (parseSchema nameMinSchema "").map Field.validation := by
  decide

theorem mergeField_validation_of_none {f : Field} {h : FieldHints}
    (hv : h.validation = none) : (mergeField f h).validation = f.validation := by
  cases f with
  | mk nm pa ft vr ec zr va => simp [mergeField, hv, Field.validation]

theorem applyFieldOptions_validation (fo : List (String × FieldHints)) :
    ∀ fs : List Field, (∀ kv ∈ fo, kv.snd.validation = none) →
      (applyFieldOptions fs fo).map Field.validation = fs.map Field.validation := by
  induction fo with
  | nil => intro fs _; rfl
  | cons kv rest ih =>
    intro fs hv
    have hstep : (fs.map fun f => if f.name == kv.fst then mergeField f kv.snd else f).map
        Field.validation = fs.map Field.validation := by
      rw [List.map_map]
      apply List.map_congr_left
      intro f _
      by_cases hn : f.name = kv.fst
      · simp [hn, mergeField_validation_of_none (hv kv (List.mem_cons_self kv rest))]
      · simp [hn]
    have hrest : ∀ kv' ∈ rest, kv'.snd.validation = none := fun kv' hm =>
      hv kv' (List.mem_cons_of_mem kv hm)
    calc (applyFieldOptions fs (kv :: rest)).map Field.validation
        = (applyFieldOptions
            (fs.map fun f => if f.name == kv.fst then mergeField f kv.snd else f)
            rest).map Field.validation := by
          simp [applyFieldOptions]
      _ = (fs.map fun f => if f.name == kv.fst then mergeField f kv.snd else f).map
            Field.validation := ih _ hrest
      _ = fs.map Field.validation := hstep

/-- Claim C2 (amended): a caller-supplied hint bag is shallow-merged onto
the field, so a hint may change the field's kind — but the constraint bags
are preserved exactly when no hint bag carries a `validation` key; a hint
bag that does carry one overwrites the schema-derived constraints
(see the counterexample). -/
theorem claim2_hints_merge :
    (∀ (schema : ZodType) (fo : List (String × FieldHints)),
      (∀ kv ∈ fo, kv.snd.validation = none) →
      (generateFields schema fo).map Field.validation
        = (parseSchema schema "").map Field.validation) ∧
    (generateFields nameMinSchema [("name", ⟨some .textarea, none, none⟩)]).map Field.typeK
      = [ElemKind.textarea] := by
  constructor
  · intro schema fo hv
    exact applyFieldOptions_validation fo (parseSchema schema "") hv
  · decide

/-- Witness for the amended C2: a kind-only hint leaves the extracted
constraints untouched. -/
theorem claim2_witness :
    (∀ kv ∈ [("name", (⟨some .textarea, none, none⟩ : FieldHints))],
      kv.snd.validation = none) ∧
    (generateFields nameMinSchema [("name", ⟨some .textarea, none, none⟩)]).map
        Field.validation
      = (parseSchema nameMinSchema "").map Field.validation :=
  ⟨by decide,
   claim2_hints_merge.1 nameMinSchema [("name", ⟨some .textarea, none, none⟩)] (by decide)⟩

/-- Counterexample to C3 as stated: on the failing value the result of
`validateField` carries no `message` property at all — the configured
message is delivered under the `errors` map keyed by the field name, not as
a top-level `message`. -/
theorem claim3_counterexample :
    (validateField nameMinSchema "name" (.str "J")).map FieldCheckResult.message
        = some none ∧
    (validateField nameMinSchema "name" (.str "J")).map FieldCheckResult.message
        ≠ some (some "Name must contain at least 2 characters") := by
  decide

/-- Claim C3 (amended): for the schema `{name: minLength(2)}`,
`validateField(schema, "name", "J")` is invalid with the configured message
stored in its `errors` map under the key `name` (and no top-level `message`
property), `validateField(schema, "name", "Jo")` is valid; and for any
single-segment field path, the check is built from the named field's own
sub-schema alone, so the result is unchanged by whatever else the object
shape contains. -/
theorem claim3_validateField :
    (validateField nameMinSchema "name" (.str "J")
      = some ⟨false, [("name", "Name must contain at least 2 characters")], none⟩) ∧
    (validateField nameMinSchema "name" (.str "Jo") = some ⟨true, [], none⟩) ∧
    (∀ (shape : List (String × ZodType)) (fieldPath : String) (sub : ZodType) (v : JsValue),
      splitDots fieldPath = [fieldPath] →
      shapeGet (.zobject shape) fieldPath = some sub →
      validateField (.zobject shape) fieldPath v
        = validateField (.zobject [(fieldPath, sub)]) fieldPath v) := by
  refine ⟨by decide, by decide, ?_⟩
  intro shape fieldPath sub v hsplit hget
  have hget1 : shapeGet (.zobject [(fieldPath, sub)]) fieldPath = some sub := by
    simp [shapeGet, List.find?]
  simp [validateField, hsplit, hget, hget1]

/-- Witness for the isolation part of C3: adding an unrelated (failing)
required field to the shape leaves the single-field check unchanged. -/
theorem claim3_witness :
    splitDots "name" = ["name"] ∧
    shapeGet (.zobject exShapeTwo) "name"
      = some (.zstring [.min 2 (some "Name must contain at least 2 characters")]) ∧
    validateField (.zobject exShapeTwo) "name" (.str "Jo")
      = validateField
          (.zobject [("name", .zstring [.min 2 (some "Name must contain at least 2 characters")])])
          "name" (.str "Jo") :=
  ⟨by decide, by rfl,
   claim3_validateField.2.2 exShapeTwo "name"
     (.zstring [.min 2 (some "Name must contain at least 2 characters")]) (.str "Jo")
     (by decide) (by rfl)⟩

theorem jsGetStr_objAssign (m : List (String × String)) (k v k' : String) :
    jsGetStr (objAssign m k v) k' = if k' = k then some v else jsGetStr m k' := by
  induction m with
  | nil =>
    by_cases h : k' = k
    · simp [objAssign, jsGetStr, h]
    · simp [objAssign, jsGetStr, h, Ne.symm h]
  | cons p rest ih =>
    obtain ⟨k0, v0⟩ := p
    by_cases h0 : k0 = k
    · subst h0
      by_cases h : k' = k0
      · simp [objAssign, jsGetStr, h]
      · simp [objAssign, jsGetStr, h, Ne.symm h]
    · by_cases h : k0 = k'
      · subst h
        simp [objAssign, jsGetStr, h0, Ne.symm h0]
      · simp [objAssign, jsGetStr, h0, h, ih]

theorem keys_objAssign (m : List (String × String)) (k v : String) :
    (objAssign m k v).map Prod.fst =
      if k ∈ m.map Prod.fst then m.map Prod.fst else m.map Prod.fst ++ [k] := by
  induction m with
  | nil => simp [objAssign]
  | cons p rest ih =>
    obtain ⟨k0, v0⟩ := p
    by_cases h0 : k0 = k
    · simp [objAssign, h0]
    · by_cases hk : k ∈ rest.map Prod.fst <;>
        simp [objAssign, h0, hk, Ne.symm h0, ih]

theorem nodup_keys_objAssign (m : List (String × String)) (k v : String)
    (h : (m.map Prod.fst).Nodup) : ((objAssign m k v).map Prod.fst).Nodup := by
  rw [keys_objAssign]
  by_cases hk : k ∈ m.map Prod.fst
  · simpa [hk] using h
  · simp [hk, List.nodup_append, h]

theorem mem_keys_objAssign (m : List (String × String)) (k v k' : String) :
    k' ∈ (objAssign m k v).map Prod.fst ↔ k' ∈ m.map Prod.fst ∨ k' = k := by
  rw [keys_objAssign]
  by_cases hk : k ∈ m.map Prod.fst
  · simp only [hk, if_true]
    constructor
    · exact Or.inl
    · rintro (h | h)
      · exact h
      · exact h ▸ hk
  · simp [hk]

theorem find?_append_singleton {α : Type} (l : List α) (e : α) (p : α → Bool) :
    (l ++ [e]).find? p =
      match l.find? p with
      | some x => some x
      | none => if p e then some e else none := by
  induction l with
  | nil => cases hpe : p e <;> simp [List.find?, hpe]
  | cons a rest ih => by_cases h : p a <;> simp [List.find?, h, ih]

theorem formatFold_nodup (issues : List Issue) :
    ∀ acc : List (String × String), (acc.map Prod.fst).Nodup →
      ((issues.foldl (fun a e => objAssign a (joinDots e.path) e.message) acc).map
        Prod.fst).Nodup := by
  induction issues with
  | nil => intro acc h; simpa using h
  | cons e rest ih =>
    intro acc h
    exact ih _ (nodup_keys_objAssign acc (joinDots e.path) e.message h)

theorem formatFold_mem (issues : List Issue) :
    ∀ (acc : List (String × String)) (k : String),
      (k ∈ (issues.foldl (fun a e => objAssign a (joinDots e.path) e.message) acc).map
          Prod.fst
        ↔ k ∈ acc.map Prod.fst ∨ ∃ e ∈ issues, joinDots e.path = k) := by
  induction issues with
  | nil => intro acc k; simp
  | cons e rest ih =>
    intro acc k
    rw [List.foldl_cons, ih, mem_keys_objAssign]
    constructor
    · rintro ((h | h) | h)
      · exact Or.inl h
      · exact Or.inr ⟨e, List.mem_cons_self e rest, h.symm⟩
      · obtain ⟨e', he', hk⟩ := h
        exact Or.inr ⟨e', List.mem_cons_of_mem e he', hk⟩
    · rintro (h | h)
      · exact Or.inl (Or.inl h)
      · obtain ⟨e', he', hk⟩ := h
        rcases List.mem_cons.mp he' with he1 | he1
        · exact Or.inl (Or.inr (he1 ▸ hk.symm))
        · exact Or.inr ⟨e', he1, hk⟩

theorem formatFold_lookup (issues : List Issue) :
    ∀ (acc : List (String × String)) (k : String),
      jsGetStr (issues.foldl (fun a e => objAssign a (joinDots e.path) e.message) acc) k =
        match issues.reverse.find? (fun e => joinDots e.path == k) with
        | some e => some e.message
        | none => jsGetStr acc k := by
  induction issues with
  | nil => intro acc k; simp
  | cons e rest ih =>
    intro acc k
    rw [List.foldl_cons, ih]
    have happ := find?_append_singleton rest.reverse e (fun e => joinDots e.path == k)
    rcases hf : rest.reverse.find? (fun e => joinDots e.path == k) with _ | e'
    · rw [hf] at happ
      by_cases hk : joinDots e.path = k
      · simp only [List.reverse_cons, happ, hk]
        simp [jsGetStr_objAssign, hk, hf]
      · simp only [List.reverse_cons, happ]
        have hb : (joinDots e.path == k) = false := by
          simpa using hk
        simp [hb, jsGetStr_objAssign, Ne.symm hk, hf]
    · rw [hf] at happ
      simp only [List.reverse_cons, happ, hf]

/-- Claim C4: `formatZodErrors` maps each failure to the key obtained by
joining its path with `.`; the keys are exactly the failing paths with no
duplicates (the last failure reported for a path supplies its message);
and on the spec's example schema and input the result has exactly the two
entries keyed `name` and `email`, carrying the configured messages. -/
theorem claim4_formatZodErrors :
    (∀ issues : List Issue, ((formatZodErrors issues).map Prod.fst).Nodup) ∧
    (∀ (issues : List Issue) (k : String),
      k ∈ (formatZodErrors issues).map Prod.fst ↔ ∃ e ∈ issues, joinDots e.path = k) ∧
    (∀ (issues : List Issue) (k : String),
      jsGetStr (formatZodErrors issues) k =
        (issues.reverse.find? fun e => joinDots e.path == k).map Issue.message) ∧
    (formatZodErrors (zodParse nameEmailSchema nameEmailInput) =
      [("name", "Name must contain at least 2 characters"),
       ("email", "Please enter a valid email address")]) := by
  refine ⟨?_, ?_, ?_, by decide⟩
  · intro issues
    exact formatFold_nodup issues [] (by simp)
  · intro issues k
    rw [formatZodErrors, formatFold_mem issues [] k]
    simp
  · intro issues k
    rw [formatZodErrors, formatFold_lookup issues [] k]
    rcases hf : issues.reverse.find? (fun e => joinDots e.path == k) with _ | e <;>
      simp [jsGetStr, hf]

/-- Claim C8 (divergence witness): for the spec's example rule, with the
controlling field initially `student` and the target's inputs in their
pristine enabled state, the compiled script's initialization hides the
target but leaves its inputs enabled — the claimed
hidden-implies-disabled coupling fails at initialization (the disabled
toggle lives only in the change handler), while one run of the change
handler establishes the claimed state, including re-showing the target
when the value becomes `employed`. -/
theorem claim8_init_leaves_inputs_enabled :
    condInitStep employmentRule (.raw "student") ⟨true, false⟩ = ⟨false, false⟩ ∧
    ¬ condConsistent employmentRule (.raw "student")
        (condInitStep employmentRule (.raw "student") ⟨true, false⟩) ∧
    (∀ (v : CtrlVal) (s : TargetVisState),
      condConsistent employmentRule v (condChangeStep employmentRule v s)) ∧
    condConsistent employmentRule (.raw "employed")
      (condChangeStep employmentRule (.raw "employed") ⟨false, true⟩) := by
  refine ⟨by decide, ?_, ?_, ?_⟩
  · simp [condConsistent, condInitStep, condShouldShow, ctrlEq, employmentRule]
  · intro v s
    simp [condConsistent, condChangeStep]
  · simp [condConsistent, condChangeStep, condShouldShow, ctrlEq, employmentRule]

theorem field_withType_self {f : Field} {k : ElemKind} (h : f.typeK = k) :
    f.withType k = f := by
  cases f with
  | mk n p ft v e z va =>
    cases ft with
    | mk k0 pa mi ma os it fs vt op =>
      simp [Field.typeK, Field.ftype, FieldType.typeK] at h
      subst h
      simp [Field.withType, FieldType.withType]

/-- Claim C9: rendering never changes the field descriptor: the field
object's state after `renderField` equals the one passed in, for every
descriptor and every options object — including the `email`/`url`
renderers, whose `field.type = ...` write re-assigns the value the
dispatcher selected them by. -/
theorem claim9_render_preserves_descriptor :
    (∀ (f : Field) (o : RenderOptions), (renderField f o).fst = f) ∧
    (∀ (f : Field) (o : RenderOptions), f.typeK = ElemKind.email →
      (emailRender f o).fst = f) ∧
    (∀ (f : Field) (o : RenderOptions), f.typeK = ElemKind.url →
      (urlRender f o).fst = f) := by
  have hemail : ∀ (f : Field) (o : RenderOptions), f.typeK = ElemKind.email →
      (emailRender f o).fst = f := by
    intro f o h
    simp [emailRender, textRender, field_withType_self h]
  have hurl : ∀ (f : Field) (o : RenderOptions), f.typeK = ElemKind.url →
      (urlRender f o).fst = f := by
    intro f o h
    simp [urlRender, textRender, field_withType_self h]
  refine ⟨?_, hemail, hurl⟩
  intro f o
  rw [renderField, renderDispatch]
  cases hk : f.typeK <;>
    simp [hk, textRender, textareaRender, selectRender, checkboxRender, radioRender,
      fileRender, numberRender, rangeRender, dateRender, starsRender,
      hemail f o, hurl f o]

/-- Witness for the per-renderer parts of C9 at concrete email and url
fields. -/
theorem claim9_witness :
    ((Field.mk "e" "e" (FieldType.base .email) ValidationRules.base false none none).typeK
        = ElemKind.email ∧
      (emailRender (Field.mk "e" "e" (FieldType.base .email) ValidationRules.base false none none)
          ⟨[], false⟩).fst
        = Field.mk "e" "e" (FieldType.base .email) ValidationRules.base false none none) ∧
    ((Field.mk "u" "u" (FieldType.base .url) ValidationRules.base false none none).typeK
        = ElemKind.url ∧
      (urlRender (Field.mk "u" "u" (FieldType.base .url) ValidationRules.base false none none)
          ⟨[], false⟩).fst
        = Field.mk "u" "u" (FieldType.base .url) ValidationRules.base false none none) :=
  ⟨⟨rfl, claim9_render_preserves_descriptor.2.1 _ _ rfl⟩,
   ⟨rfl, claim9_render_preserves_descriptor.2.2 _ _ rfl⟩⟩

end ZodForm
